import Mathlib

/-!
Verification of the numerical core of the `mermaid` registration repository:
the finite-difference engine (`finite_differences.py`), the Helmholtz
regularizer (`pyreg/regularizer_factory.py`), the smoothers
(`pyreg/smoother_factory.py`) and the explicit Runge-Kutta integrators
(`pyreg/rungekutta_integrators.py`).

Arrays are modelled over exact rationals (the spec states the mathematical
contract independent of the floating-point backend).  A scalar field of
dimension d is a function on a product of `Fin (n+1)` index sets; using
`n+1` sizes keeps every axis nonempty, as NumPy/PyTorch indexing of the
source requires.
-/

set_option maxHeartbeats 1000000
set_option linter.unusedVariables false

abbrev Field1 (n : ℕ) := Fin (n + 1) → ℚ
abbrev Field2 (n m : ℕ) := Fin (n + 1) → Fin (m + 1) → ℚ
abbrev Field3 (n m p : ℕ) := Fin (n + 1) → Fin (m + 1) → Fin (p + 1) → ℚ

/-! ### Shifted-array accessors of `FD` (finite_differences.py, `xp`/`xm`/`yp`/`ym`/`zp`/`zm`)

`bc = true` is the constructor default `bcNeumannZero=True` (replicate the
edge value), `bc = false` the linear-extrapolation policy `2*edge - neighbor`.
In the extrapolation branch Python reads the neighbor `I[-2]` (resp. `I[1]`),
which requires the axis to have length at least 2; on a length-1 axis the
source raises IndexError, and the theorems below only use that branch on
axes of length ≥ 2 (the `min`/truncated-subtraction indices are never read
at length 1 there). -/

def xp1 {n : ℕ} (bc : Bool) (I : Field1 n) : Field1 n := fun i =>
  if h : (i : ℕ) < n then I ⟨i + 1, Nat.succ_lt_succ h⟩
  else if bc then I i else 2 * I i - I ⟨n - 1, by omega⟩

def xm1 {n : ℕ} (bc : Bool) (I : Field1 n) : Field1 n := fun i =>
  if h : 0 < (i : ℕ) then I ⟨i - 1, by omega⟩
  else if bc then I i else 2 * I i - I ⟨min 1 n, by omega⟩

def xp2 {n m : ℕ} (bc : Bool) (I : Field2 n m) : Field2 n m := fun i j =>
  if h : (i : ℕ) < n then I ⟨i + 1, Nat.succ_lt_succ h⟩ j
  else if bc then I i j else 2 * I i j - I ⟨n - 1, by omega⟩ j

def xm2 {n m : ℕ} (bc : Bool) (I : Field2 n m) : Field2 n m := fun i j =>
  if h : 0 < (i : ℕ) then I ⟨i - 1, by omega⟩ j
  else if bc then I i j else 2 * I i j - I ⟨min 1 n, by omega⟩ j

def yp2 {n m : ℕ} (bc : Bool) (I : Field2 n m) : Field2 n m := fun i j =>
  if h : (j : ℕ) < m then I i ⟨j + 1, Nat.succ_lt_succ h⟩
  else if bc then I i j else 2 * I i j - I i ⟨m - 1, by omega⟩

def ym2 {n m : ℕ} (bc : Bool) (I : Field2 n m) : Field2 n m := fun i j =>
  if h : 0 < (j : ℕ) then I i ⟨j - 1, by omega⟩
  else if bc then I i j else 2 * I i j - I i ⟨min 1 m, by omega⟩

def xp3 {n m p : ℕ} (bc : Bool) (I : Field3 n m p) : Field3 n m p := fun i j k =>
  if h : (i : ℕ) < n then I ⟨i + 1, Nat.succ_lt_succ h⟩ j k
  else if bc then I i j k else 2 * I i j k - I ⟨n - 1, by omega⟩ j k

def xm3 {n m p : ℕ} (bc : Bool) (I : Field3 n m p) : Field3 n m p := fun i j k =>
  if h : 0 < (i : ℕ) then I ⟨i - 1, by omega⟩ j k
  else if bc then I i j k else 2 * I i j k - I ⟨min 1 n, by omega⟩ j k

def yp3 {n m p : ℕ} (bc : Bool) (I : Field3 n m p) : Field3 n m p := fun i j k =>
  if h : (j : ℕ) < m then I i ⟨j + 1, Nat.succ_lt_succ h⟩ k
  else if bc then I i j k else 2 * I i j k - I i ⟨m - 1, by omega⟩ k

def ym3 {n m p : ℕ} (bc : Bool) (I : Field3 n m p) : Field3 n m p := fun i j k =>
  if h : 0 < (j : ℕ) then I i ⟨j - 1, by omega⟩ k
  else if bc then I i j k else 2 * I i j k - I i ⟨min 1 m, by omega⟩ k

def zp3 {n m p : ℕ} (bc : Bool) (I : Field3 n m p) : Field3 n m p := fun i j k =>
  if h : (k : ℕ) < p then I i j ⟨k + 1, Nat.succ_lt_succ h⟩
  else if bc then I i j k else 2 * I i j k - I i j ⟨p - 1, by omega⟩

def zm3 {n m p : ℕ} (bc : Bool) (I : Field3 n m p) : Field3 n m p := fun i j k =>
  if h : 0 < (k : ℕ) then I i j ⟨k - 1, by omega⟩
  else if bc then I i j k else 2 * I i j k - I i j ⟨min 1 p, by omega⟩

/-! ### Directional differences (`FD.dXb` ... `FD.ddZc`)

`h0`, `h1`, `h2` are `spacing[0]`, `spacing[1]`, `spacing[2]`. -/

def dXb1 {n : ℕ} (bc : Bool) (h0 : ℚ) (I : Field1 n) : Field1 n := fun i =>
  (I i - xm1 bc I i) / h0

def dXf1 {n : ℕ} (bc : Bool) (h0 : ℚ) (I : Field1 n) : Field1 n := fun i =>
  (xp1 bc I i - I i) / h0

def dXc1 {n : ℕ} (bc : Bool) (h0 : ℚ) (I : Field1 n) : Field1 n := fun i =>
  (xp1 bc I i - xm1 bc I i) / (2 * h0)

def ddXc1 {n : ℕ} (bc : Bool) (h0 : ℚ) (I : Field1 n) : Field1 n := fun i =>
  (xp1 bc I i - 2 * I i + xm1 bc I i) / h0 ^ 2

def dXb2 {n m : ℕ} (bc : Bool) (h0 : ℚ) (I : Field2 n m) : Field2 n m := fun i j =>
  (I i j - xm2 bc I i j) / h0

def dXf2 {n m : ℕ} (bc : Bool) (h0 : ℚ) (I : Field2 n m) : Field2 n m := fun i j =>
  (xp2 bc I i j - I i j) / h0

def dXc2 {n m : ℕ} (bc : Bool) (h0 : ℚ) (I : Field2 n m) : Field2 n m := fun i j =>
  (xp2 bc I i j - xm2 bc I i j) / (2 * h0)

def ddXc2 {n m : ℕ} (bc : Bool) (h0 : ℚ) (I : Field2 n m) : Field2 n m := fun i j =>
  (xp2 bc I i j - 2 * I i j + xm2 bc I i j) / h0 ^ 2

def dYb2 {n m : ℕ} (bc : Bool) (h1 : ℚ) (I : Field2 n m) : Field2 n m := fun i j =>
  (I i j - ym2 bc I i j) / h1

def dYf2 {n m : ℕ} (bc : Bool) (h1 : ℚ) (I : Field2 n m) : Field2 n m := fun i j =>
  (yp2 bc I i j - I i j) / h1

def dYc2 {n m : ℕ} (bc : Bool) (h1 : ℚ) (I : Field2 n m) : Field2 n m := fun i j =>
  (yp2 bc I i j - ym2 bc I i j) / (2 * h1)

def ddYc2 {n m : ℕ} (bc : Bool) (h1 : ℚ) (I : Field2 n m) : Field2 n m := fun i j =>
  (yp2 bc I i j - 2 * I i j + ym2 bc I i j) / h1 ^ 2

def dXb3 {n m p : ℕ} (bc : Bool) (h0 : ℚ) (I : Field3 n m p) : Field3 n m p := fun i j k =>
  (I i j k - xm3 bc I i j k) / h0

def dXf3 {n m p : ℕ} (bc : Bool) (h0 : ℚ) (I : Field3 n m p) : Field3 n m p := fun i j k =>
  (xp3 bc I i j k - I i j k) / h0

def dXc3 {n m p : ℕ} (bc : Bool) (h0 : ℚ) (I : Field3 n m p) : Field3 n m p := fun i j k =>
  (xp3 bc I i j k - xm3 bc I i j k) / (2 * h0)

def ddXc3 {n m p : ℕ} (bc : Bool) (h0 : ℚ) (I : Field3 n m p) : Field3 n m p := fun i j k =>
  (xp3 bc I i j k - 2 * I i j k + xm3 bc I i j k) / h0 ^ 2

def dYb3 {n m p : ℕ} (bc : Bool) (h1 : ℚ) (I : Field3 n m p) : Field3 n m p := fun i j k =>
  (I i j k - ym3 bc I i j k) / h1

def dYf3 {n m p : ℕ} (bc : Bool) (h1 : ℚ) (I : Field3 n m p) : Field3 n m p := fun i j k =>
  (yp3 bc I i j k - I i j k) / h1

def dYc3 {n m p : ℕ} (bc : Bool) (h1 : ℚ) (I : Field3 n m p) : Field3 n m p := fun i j k =>
  (yp3 bc I i j k - ym3 bc I i j k) / (2 * h1)

def ddYc3 {n m p : ℕ} (bc : Bool) (h1 : ℚ) (I : Field3 n m p) : Field3 n m p := fun i j k =>
  (yp3 bc I i j k - 2 * I i j k + ym3 bc I i j k) / h1 ^ 2

def dZb3 {n m p : ℕ} (bc : Bool) (h2 : ℚ) (I : Field3 n m p) : Field3 n m p := fun i j k =>
  (I i j k - zm3 bc I i j k) / h2

def dZf3 {n m p : ℕ} (bc : Bool) (h2 : ℚ) (I : Field3 n m p) : Field3 n m p := fun i j k =>
  (zp3 bc I i j k - I i j k) / h2

def dZc3 {n m p : ℕ} (bc : Bool) (h2 : ℚ) (I : Field3 n m p) : Field3 n m p := fun i j k =>
  (zp3 bc I i j k - zm3 bc I i j k) / (2 * h2)

def ddZc3 {n m p : ℕ} (bc : Bool) (h2 : ℚ) (I : Field3 n m p) : Field3 n m p := fun i j k =>
  (zp3 bc I i j k - 2 * I i j k + zm3 bc I i j k) / h2 ^ 2

/-! ### Laplacian (`FD.lap`), dispatching on the dimension of the input field -/

def lap1 {n : ℕ} (bc : Bool) (h0 : ℚ) (I : Field1 n) : Field1 n :=
  ddXc1 bc h0 I

def lap2 {n m : ℕ} (bc : Bool) (h0 h1 : ℚ) (I : Field2 n m) : Field2 n m := fun i j =>
  ddXc2 bc h0 I i j + ddYc2 bc h1 I i j

def lap3 {n m p : ℕ} (bc : Bool) (h0 h1 h2 : ℚ) (I : Field3 n m p) : Field3 n m p := fun i j k =>
  ddXc3 bc h0 I i j k + ddYc3 bc h1 I i j k + ddZc3 bc h2 I i j k

/-! ### C5: central difference is the average of forward and backward differences -/

lemma cdiff_avg (a b c h : ℚ) : (a - b) / (2 * h) = ((a - c) / h + (c - b) / h) / 2 := by
  rw [div_add_div_same, div_div]
  ring_nf

/-- C5: for every scalar field matching the engine's configured dimension, every
boundary policy and every grid point (in particular every interior point), the
central difference along an axis is the average of the forward and backward
differences along that axis; this holds for the X variant in dimension 1, the
X/Y variants in dimension 2 and the X/Y/Z variants in dimension 3. -/
theorem dXc_is_average_of_dXf_dXb
    (n m p : ℕ) (bc : Bool) (h0 h1 h2 : ℚ)
    (I1 : Field1 n) (I2 : Field2 n m) (I3 : Field3 n m p)
    (i : Fin (n + 1)) (j : Fin (m + 1)) (k : Fin (p + 1)) :
    dXc1 bc h0 I1 i = (dXf1 bc h0 I1 i + dXb1 bc h0 I1 i) / 2 ∧
    dXc2 bc h0 I2 i j = (dXf2 bc h0 I2 i j + dXb2 bc h0 I2 i j) / 2 ∧
    dYc2 bc h1 I2 i j = (dYf2 bc h1 I2 i j + dYb2 bc h1 I2 i j) / 2 ∧
    dXc3 bc h0 I3 i j k = (dXf3 bc h0 I3 i j k + dXb3 bc h0 I3 i j k) / 2 ∧
    dYc3 bc h1 I3 i j k = (dYf3 bc h1 I3 i j k + dYb3 bc h1 I3 i j k) / 2 ∧
    dZc3 bc h2 I3 i j k = (dZf3 bc h2 I3 i j k + dZb3 bc h2 I3 i j k) / 2 := by
  refine ⟨?_, ?_, ?_, ?_, ?_, ?_⟩
  · exact cdiff_avg (xp1 bc I1 i) (xm1 bc I1 i) (I1 i) h0
  · exact cdiff_avg (xp2 bc I2 i j) (xm2 bc I2 i j) (I2 i j) h0
  · exact cdiff_avg (yp2 bc I2 i j) (ym2 bc I2 i j) (I2 i j) h1
  · exact cdiff_avg (xp3 bc I3 i j k) (xm3 bc I3 i j k) (I3 i j k) h0
  · exact cdiff_avg (yp3 bc I3 i j k) (ym3 bc I3 i j k) (I3 i j k) h1
  · exact cdiff_avg (zp3 bc I3 i j k) (zm3 bc I3 i j k) (I3 i j k) h2

/-! ### C6: boundary behavior of the shift operators -/

/-- C6: for every scalar field and every axis, under the zero-Neumann policy the
forward shift at the last index along the axis replicates the edge value, and
symmetrically the backward shift at the first index; under the non-Neumann
(linear extrapolation) policy the boundary value is `2*edge - neighbor` instead
(the extrapolation conjuncts read the neighbor, so their axes have length ≥ 2). -/
theorem boundary_shift_rules
    (n1 m1 p1 n2 m2 p2 : ℕ) (hn2 : 0 < n2) (hm2 : 0 < m2) (hp2 : 0 < p2)
    (J1 : Field1 n1) (J2 : Field2 n1 m1) (J3 : Field3 n1 m1 p1)
    (K1 : Field1 n2) (K2 : Field2 n2 m2) (K3 : Field3 n2 m2 p2)
    (a1 : Fin (n1 + 1)) (b1 : Fin (m1 + 1)) (c1 : Fin (p1 + 1))
    (a2 : Fin (n2 + 1)) (b2 : Fin (m2 + 1)) (c2 : Fin (p2 + 1)) :
    xp1 true J1 (Fin.last n1) = J1 (Fin.last n1) ∧
    xm1 true J1 0 = J1 0 ∧
    xp2 true J2 (Fin.last n1) b1 = J2 (Fin.last n1) b1 ∧
    xm2 true J2 0 b1 = J2 0 b1 ∧
    yp2 true J2 a1 (Fin.last m1) = J2 a1 (Fin.last m1) ∧
    ym2 true J2 a1 0 = J2 a1 0 ∧
    xp3 true J3 (Fin.last n1) b1 c1 = J3 (Fin.last n1) b1 c1 ∧
    xm3 true J3 0 b1 c1 = J3 0 b1 c1 ∧
    yp3 true J3 a1 (Fin.last m1) c1 = J3 a1 (Fin.last m1) c1 ∧
    ym3 true J3 a1 0 c1 = J3 a1 0 c1 ∧
    zp3 true J3 a1 b1 (Fin.last p1) = J3 a1 b1 (Fin.last p1) ∧
    zm3 true J3 a1 b1 0 = J3 a1 b1 0 ∧
    xp1 false K1 (Fin.last n2) = 2 * K1 (Fin.last n2) - K1 ⟨n2 - 1, by omega⟩ ∧
    xm1 false K1 0 = 2 * K1 0 - K1 ⟨1, by omega⟩ ∧
    xp2 false K2 (Fin.last n2) b2 = 2 * K2 (Fin.last n2) b2 - K2 ⟨n2 - 1, by omega⟩ b2 ∧
    xm2 false K2 0 b2 = 2 * K2 0 b2 - K2 ⟨1, by omega⟩ b2 ∧
    yp2 false K2 a2 (Fin.last m2) = 2 * K2 a2 (Fin.last m2) - K2 a2 ⟨m2 - 1, by omega⟩ ∧
    ym2 false K2 a2 0 = 2 * K2 a2 0 - K2 a2 ⟨1, by omega⟩ ∧
    xp3 false K3 (Fin.last n2) b2 c2 = 2 * K3 (Fin.last n2) b2 c2 - K3 ⟨n2 - 1, by omega⟩ b2 c2 ∧
    xm3 false K3 0 b2 c2 = 2 * K3 0 b2 c2 - K3 ⟨1, by omega⟩ b2 c2 ∧
    yp3 false K3 a2 (Fin.last m2) c2 = 2 * K3 a2 (Fin.last m2) c2 - K3 a2 ⟨m2 - 1, by omega⟩ c2 ∧
    ym3 false K3 a2 0 c2 = 2 * K3 a2 0 c2 - K3 a2 ⟨1, by omega⟩ c2 ∧
    zp3 false K3 a2 b2 (Fin.last p2) = 2 * K3 a2 b2 (Fin.last p2) - K3 a2 b2 ⟨p2 - 1, by omega⟩ ∧
    zm3 false K3 a2 b2 0 = 2 * K3 a2 b2 0 - K3 a2 b2 ⟨1, by omega⟩ := by
  refine ⟨?_, ?_, ?_, ?_, ?_, ?_, ?_, ?_, ?_, ?_, ?_, ?_, ?_, ?_, ?_, ?_, ?_, ?_, ?_, ?_,
    ?_, ?_, ?_, ?_⟩
  · simp [xp1]
  · simp [xm1]
  · simp [xp2]
  · simp [xm2]
  · simp [yp2]
  · simp [ym2]
  · simp [xp3]
  · simp [xm3]
  · simp [yp3]
  · simp [ym3]
  · simp [zp3]
  · simp [zm3]
  · simp [xp1]
  · simp [xm1, min_eq_left (by omega : 1 ≤ n2)]
  · simp [xp2]
  · simp [xm2, min_eq_left (by omega : 1 ≤ n2)]
  · simp [yp2]
  · simp [ym2, min_eq_left (by omega : 1 ≤ m2)]
  · simp [xp3]
  · simp [xm3, min_eq_left (by omega : 1 ≤ n2)]
  · simp [yp3]
  · simp [ym3, min_eq_left (by omega : 1 ≤ m2)]
  · simp [zp3]
  · simp [zm3, min_eq_left (by omega : 1 ≤ p2)]

/-- Concrete 1D field used by witnesses. -/
def W1 : Field1 1 := fun i => (i : ℚ)

/-- Concrete 2D field used by witnesses. -/
def W2 : Field2 1 1 := fun i j => (i : ℚ) + 2 * (j : ℚ)

/-- Concrete 3D field used by witnesses. -/
def W3 : Field3 1 1 1 := fun i j k => (i : ℚ) + 2 * (j : ℚ) + 4 * (k : ℚ)

/-- Witness for `boundary_shift_rules` at concrete fields on 2-point axes. -/
theorem boundary_shift_rules_witness :
    xp1 true W1 (Fin.last 1) = W1 (Fin.last 1) ∧
    xm1 true W1 0 = W1 0 ∧
    xp2 true W2 (Fin.last 1) 0 = W2 (Fin.last 1) 0 ∧
    xm2 true W2 0 0 = W2 0 0 ∧
    yp2 true W2 0 (Fin.last 1) = W2 0 (Fin.last 1) ∧
    ym2 true W2 0 0 = W2 0 0 ∧
    xp3 true W3 (Fin.last 1) 0 0 = W3 (Fin.last 1) 0 0 ∧
    xm3 true W3 0 0 0 = W3 0 0 0 ∧
    yp3 true W3 0 (Fin.last 1) 0 = W3 0 (Fin.last 1) 0 ∧
    ym3 true W3 0 0 0 = W3 0 0 0 ∧
    zp3 true W3 0 0 (Fin.last 1) = W3 0 0 (Fin.last 1) ∧
    zm3 true W3 0 0 0 = W3 0 0 0 ∧
    xp1 false W1 (Fin.last 1) = 2 * W1 (Fin.last 1) - W1 ⟨0, by omega⟩ ∧
    xm1 false W1 0 = 2 * W1 0 - W1 ⟨1, by omega⟩ ∧
    xp2 false W2 (Fin.last 1) 0 = 2 * W2 (Fin.last 1) 0 - W2 ⟨0, by omega⟩ 0 ∧
    xm2 false W2 0 0 = 2 * W2 0 0 - W2 ⟨1, by omega⟩ 0 ∧
    yp2 false W2 0 (Fin.last 1) = 2 * W2 0 (Fin.last 1) - W2 0 ⟨0, by omega⟩ ∧
    ym2 false W2 0 0 = 2 * W2 0 0 - W2 0 ⟨1, by omega⟩ ∧
    xp3 false W3 (Fin.last 1) 0 0 = 2 * W3 (Fin.last 1) 0 0 - W3 ⟨0, by omega⟩ 0 0 ∧
    xm3 false W3 0 0 0 = 2 * W3 0 0 0 - W3 ⟨1, by omega⟩ 0 0 ∧
    yp3 false W3 0 (Fin.last 1) 0 = 2 * W3 0 (Fin.last 1) 0 - W3 0 ⟨0, by omega⟩ 0 ∧
    ym3 false W3 0 0 0 = 2 * W3 0 0 0 - W3 0 ⟨1, by omega⟩ 0 ∧
    zp3 false W3 0 0 (Fin.last 1) = 2 * W3 0 0 (Fin.last 1) - W3 0 0 ⟨0, by omega⟩ ∧
    zm3 false W3 0 0 0 = 2 * W3 0 0 0 - W3 0 0 ⟨1, by omega⟩ :=
  boundary_shift_rules 1 1 1 1 1 1 (by norm_num) (by norm_num) (by norm_num)
    W1 W2 W3 W1 W2 W3 0 0 0 0 0 0

/-! ### Helmholtz regularizer (pyreg/regularizer_factory.py)

`Regularizer.__init__` builds `FD_torch(self.spacing)`, whose constructor
defaults to `bcNeumannZero=True`, so every Laplacian below uses `bc = true`;
`volumeElement = spacing.prod()` is `h0`, `h0*h1`, `h0*h1*h2` per dimension.
A vector field of dimension d is modelled as `Fin d` many scalar fields. -/

def compute_regularizer_1d {n : ℕ} (h0 alpha gamma : ℚ) (v : Fin 1 → Field1 n) : ℚ :=
  let Lv : Field1 n := fun i => v 0 i * gamma - lap1 true h0 (v 0) i * alpha
  (∑ i, Lv i ^ 2) * h0

def compute_regularizer_2d {n m : ℕ} (h0 h1 alpha gamma : ℚ) (v : Fin 2 → Field2 n m) : ℚ :=
  let Lv : Fin 2 → Field2 n m := fun c i j => v c i j * gamma - lap2 true h0 h1 (v c) i j * alpha
  (∑ i, ∑ j, (Lv 0 i j ^ 2 + Lv 1 i j ^ 2)) * (h0 * h1)

def compute_regularizer_3d {n m p : ℕ} (h0 h1 h2 alpha gamma : ℚ)
    (v : Fin 3 → Field3 n m p) : ℚ :=
  let Lv : Fin 3 → Field3 n m p := fun c i j k =>
    v c i j k * gamma - lap3 true h0 h1 h2 (v c) i j k * alpha
  (∑ i, ∑ j, ∑ k, (Lv 0 i j k ^ 2 + Lv 1 i j k ^ 2 + Lv 2 i j k ^ 2)) * (h0 * h1 * h2)

/-- `Regularizer.compute_regularizer_multiN`: sequential accumulation over the
leading batch axis, starting from zero, of the abstract per-item
`_compute_regularizer` (the base class leaves it abstract; subclasses bind it). -/
def compute_regularizer_multiN {V : Type} (reg : V → ℚ) (N : ℕ) (v : Fin N → V) : ℚ :=
  (List.finRange N).foldl (fun acc nrI => acc + reg (v nrI)) 0

lemma foldl_add_eq_sum {α : Type} (f : α → ℚ) (l : List α) (c : ℚ) :
    l.foldl (fun acc a => acc + f a) c = c + (l.map f).sum := by
  induction l generalizing c with
  | nil => simp
  | cons a l ih => simp [ih (c + f a)]; ring

/-- C2: for a single vector field of dimension 1, 2 or 3 the regularizer returns
the sum, over components and grid points, of the squares of
`Lv = gamma*v - alpha*lap(v)` (the engine's Laplacian), multiplied by the volume
element `prod(spacing)`; and the batched entry point returns the sum of the
per-item regularizer values. -/
theorem helmholtz_regularizer_formula
    (n m p N : ℕ) (h0 h1 h2 alpha gamma : ℚ)
    (v1 : Fin 1 → Field1 n) (v2 : Fin 2 → Field2 n m) (v3 : Fin 3 → Field3 n m p)
    (V : Type) (reg : V → ℚ) (v : Fin N → V) :
    compute_regularizer_1d h0 alpha gamma v1 =
      (∑ c : Fin 1, ∑ i, (gamma * v1 c i - alpha * lap1 true h0 (v1 c) i) ^ 2) * h0 ∧
    compute_regularizer_2d h0 h1 alpha gamma v2 =
      (∑ c : Fin 2, ∑ i, ∑ j,
        (gamma * v2 c i j - alpha * lap2 true h0 h1 (v2 c) i j) ^ 2) * (h0 * h1) ∧
    compute_regularizer_3d h0 h1 h2 alpha gamma v3 =
      (∑ c : Fin 3, ∑ i, ∑ j, ∑ k,
        (gamma * v3 c i j k - alpha * lap3 true h0 h1 h2 (v3 c) i j k) ^ 2) *
        (h0 * h1 * h2) ∧
    compute_regularizer_multiN reg N v = ∑ nrI : Fin N, reg (v nrI) := by
  refine ⟨?_, ?_, ?_, ?_⟩
  · unfold compute_regularizer_1d
    dsimp only
    rw [Fin.sum_univ_one]
    congr 1
    refine Finset.sum_congr rfl fun i _ => ?_
    ring
  · unfold compute_regularizer_2d
    dsimp only
    rw [Fin.sum_univ_two]
    simp only [← Finset.sum_add_distrib]
    congr 1
    refine Finset.sum_congr rfl fun i _ => ?_
    refine Finset.sum_congr rfl fun j _ => ?_
    ring
  · unfold compute_regularizer_3d
    dsimp only
    rw [Fin.sum_univ_three]
    simp only [← Finset.sum_add_distrib]
    congr 1
    refine Finset.sum_congr rfl fun i _ => ?_
    refine Finset.sum_congr rfl fun j _ => ?_
    refine Finset.sum_congr rfl fun k _ => ?_
    ring
  · unfold compute_regularizer_multiN
    rw [foldl_add_eq_sum, zero_add]
    exact (Fin.sum_univ_def _).symm

/-- C9: with positive grid spacings and non-negative `alpha`, `gamma`, the
regularizer value of any vector field of dimension 1, 2 or 3 is non-negative. -/
theorem helmholtz_regularizer_nonneg
    (n m p : ℕ) (h0 h1 h2 alpha gamma : ℚ)
    (hh0 : 0 < h0) (hh1 : 0 < h1) (hh2 : 0 < h2)
    (halpha : 0 ≤ alpha) (hgamma : 0 ≤ gamma)
    (v1 : Fin 1 → Field1 n) (v2 : Fin 2 → Field2 n m) (v3 : Fin 3 → Field3 n m p) :
    0 ≤ compute_regularizer_1d h0 alpha gamma v1 ∧
    0 ≤ compute_regularizer_2d h0 h1 alpha gamma v2 ∧
    0 ≤ compute_regularizer_3d h0 h1 h2 alpha gamma v3 := by
  refine ⟨?_, ?_, ?_⟩
  · exact mul_nonneg (Finset.sum_nonneg fun i _ => sq_nonneg _) hh0.le
  · refine mul_nonneg (Finset.sum_nonneg fun i _ => Finset.sum_nonneg fun j _ => ?_)
      (mul_nonneg hh0.le hh1.le)
    positivity
  · refine mul_nonneg (Finset.sum_nonneg fun i _ => Finset.sum_nonneg fun j _ =>
      Finset.sum_nonneg fun k _ => ?_) (mul_nonneg (mul_nonneg hh0.le hh1.le) hh2.le)
    positivity

/-- Witness for `helmholtz_regularizer_nonneg` at unit spacing, `alpha = 0`,
`gamma = 1` and concrete fields. -/
theorem helmholtz_regularizer_nonneg_witness :
    0 ≤ compute_regularizer_1d 1 0 1 (fun _ => W1) ∧
    0 ≤ compute_regularizer_2d 1 1 0 1 (fun _ => W2) ∧
    0 ≤ compute_regularizer_3d 1 1 1 0 1 (fun _ => W3) :=
  helmholtz_regularizer_nonneg 1 1 1 1 1 1 0 1 (by norm_num) (by norm_num) (by norm_num)
    (by norm_num) (by norm_num) (fun _ => W1) (fun _ => W2) (fun _ => W3)

/-! ### Smoothers (pyreg/smoother_factory.py)

Error kinds raised by the smoother/integrator methods.  The spec's error
taxonomy names the inverse-smoothing failure `UnsupportedOperation`; the
source realizes it as `raise ValueError('Sorry: Inversion of smoothing only
supported for Fourier-based filters at the moment')`.  `nameError` models
CPython's NameError on an undefined bare name, `assertionError` a failed
`assert`, and `typeError` the TypeError `zip` raises on a non-iterable
argument. -/

inductive PyErr : Type
  | nameError
  | unsupportedOperation
  | typeError
  | assertionError
  | valueError
  deriving DecidableEq

/-- `DiffusionSmoother.smooth_scalar_field` in dimension 1: `iter*2**dim`
explicit heat-equation steps `Sv <- Sv + 0.5/(2**dim)*lap(Sv)*spacing.min()**2`,
with the engine's (zero-Neumann) Laplacian. -/
def diffusion_smooth_1d {n : ℕ} (iter : ℕ) (h0 : ℚ) (v : Field1 n) : Field1 n :=
  (List.range (iter * 2 ^ 1)).foldl
    (fun Sv _ => fun i => Sv i + 0.5 / 2 ^ 1 * lap1 true h0 Sv i * h0 ^ 2) v

/-- `DiffusionSmoother.smooth_scalar_field` in dimension 2
(`spacing.min()` is `min h0 h1`). -/
def diffusion_smooth_2d {n m : ℕ} (iter : ℕ) (h0 h1 : ℚ) (v : Field2 n m) : Field2 n m :=
  (List.range (iter * 2 ^ 2)).foldl
    (fun Sv _ => fun i j => Sv i j + 0.5 / 2 ^ 2 * lap2 true h0 h1 Sv i j * min h0 h1 ^ 2) v

/-- `DiffusionSmoother.smooth_scalar_field` in dimension 3. -/
def diffusion_smooth_3d {n m p : ℕ} (iter : ℕ) (h0 h1 h2 : ℚ) (v : Field3 n m p) :
    Field3 n m p :=
  (List.range (iter * 2 ^ 3)).foldl
    (fun Sv _ => fun i j k =>
      Sv i j k + 0.5 / 2 ^ 3 * lap3 true h0 h1 h2 Sv i j k * min h0 (min h1 h2) ^ 2) v

lemma foldl_range_const {α : Type} (g : α → α) (k : ℕ) (x : α) :
    (List.range k).foldl (fun a _ => g a) x = g^[k] x := by
  induction k generalizing x with
  | zero => rfl
  | succ k ih =>
      rw [List.range_succ, List.foldl_append, List.foldl_cons, List.foldl_nil, ih,
        ← Function.iterate_succ_apply' g k x]

/-- C3: in every supported dimension, the diffusion smoother computes
`smooth(v)` by applying exactly `iter * 2^dim` times the update
`v <- v + (0.5 / 2^dim) * lap(v) * min(spacing)^2`, with the engine's
(zero-Neumann) Laplacian and the smallest grid spacing. -/
theorem diffusion_smoother_iterates
    (n m p iter : ℕ) (h0 h1 h2 : ℚ)
    (v1 : Field1 n) (v2 : Field2 n m) (v3 : Field3 n m p) :
    diffusion_smooth_1d iter h0 v1 =
      (fun w : Field1 n => fun i => w i + 0.5 / 2 ^ 1 * lap1 true h0 w i * h0 ^ 2)^[iter * 2 ^ 1]
        v1 ∧
    diffusion_smooth_2d iter h0 h1 v2 =
      (fun w : Field2 n m => fun i j =>
        w i j + 0.5 / 2 ^ 2 * lap2 true h0 h1 w i j * min h0 h1 ^ 2)^[iter * 2 ^ 2] v2 ∧
    diffusion_smooth_3d iter h0 h1 h2 v3 =
      (fun w : Field3 n m p => fun i j k =>
        w i j k + 0.5 / 2 ^ 3 * lap3 true h0 h1 h2 w i j k *
          min h0 (min h1 h2) ^ 2)^[iter * 2 ^ 3] v3 := by
  refine ⟨?_, ?_, ?_⟩
  · exact foldl_range_const _ _ _
  · exact foldl_range_const _ _ _
  · exact foldl_range_const _ _ _

/-! ### Inverse smoothing (C7) and the spatial-Gaussian path (C10) -/

/-- `DiffusionSmoother.inverse_smooth_scalar_field`: unconditionally raises
(the spec's UnsupportedOperation; a ValueError in the source). -/
def diffusion_inverse_smooth_scalar_field {V : Type} (v : V) : Except PyErr V :=
  Except.error PyErr.unsupportedOperation

/-- `GaussianSpatialSmoother.inverse_smooth_scalar_field`: unconditionally
raises (the spec's UnsupportedOperation; a ValueError in the source). -/
def gss_inverse_smooth_scalar_field {V : Type} (v : V) : Except PyErr V :=
  Except.error PyErr.unsupportedOperation

/-- `GaussianSpatialSmoother._create_filter`.  With an explicitly configured
half-width the first statement of the non-default branch reads the bare name
`k_sz_h` (the attribute is `self.k_sz_h`), which is not a local, global or
builtin name, so CPython raises NameError there.  In the default branch
`self.k_sz` is set, the kernel is built (`utils.identity_map` and
`utils.compute_normalized_gaussian` are not part of src/ and are modelled from
the spec as plain total kernel constructions), the padding is computed, and
then the per-dimension `view` calls read the bare names `sz` and `k_sz`
(the attributes are `self.sz`, `self.k_sz`), again a NameError; a dimension
outside 1..3 reaches the `raise ValueError` branch instead.  No path returns
a filter, so the result type `Except PyErr Phi` never uses `Except.ok`. -/
def gss_create_filter (Phi : Type) (dim : ℕ) (k_sz_h : Option (List ℤ)) : Except PyErr Phi :=
  match k_sz_h with
  | some _ => Except.error PyErr.nameError
  | none =>
      if dim = 1 ∨ dim = 2 ∨ dim = 3 then Except.error PyErr.nameError
      else Except.error PyErr.valueError

/-- `GaussianSpatialSmoother.smooth_scalar_field`: lazily builds the filter
when `self.filter` is `None` (the constructor's initial state), then convolves
via `_filter_input_with_padding` (modelled as the abstract `filterInput`,
since the torch padding/convolution backend is external). -/
def gss_smooth_scalar_field {Phi V : Type} (filterInput : Phi → V → V) (dim : ℕ)
    (k_sz_h : Option (List ℤ)) (filt : Option Phi) (v : V) : Except PyErr V :=
  match filt with
  | some F => Except.ok (filterInput F v)
  | none =>
      match gss_create_filter Phi dim k_sz_h with
      | Except.error e => Except.error e
      | Except.ok F => Except.ok (filterInput F v)

/-- C10: from the constructor's initial state (`self.filter = None`), every
call to the spatial-Gaussian `smooth_scalar_field` raises a NameError for
every supported dimension — for the default as well as an explicitly
configured kernel half-width — and never returns a smoothed field. -/
theorem gss_smooth_always_fails
    (Phi V : Type) (filterInput : Phi → V → V) (dim : ℕ) (k_sz_h : Option (List ℤ)) (v : V)
    (hdim : dim = 1 ∨ dim = 2 ∨ dim = 3) :
    gss_smooth_scalar_field filterInput dim k_sz_h none v = Except.error PyErr.nameError := by
  cases k_sz_h with
  | some l => rfl
  | none => simp [gss_smooth_scalar_field, gss_create_filter, hdim]

/-- Witness for `gss_smooth_always_fails`: dimension 2, default half-width. -/
theorem gss_smooth_always_fails_witness :
    gss_smooth_scalar_field (fun (_ : ℚ) (x : ℚ) => x) 2 none none 0 =
      Except.error PyErr.nameError :=
  gss_smooth_always_fails ℚ ℚ (fun _ x => x) 2 none 0 (Or.inr (Or.inl rfl))

/-! ### Fourier-Gaussian smoother (GaussianFourierSmoother)

The frequency-domain filter is built by `_create_filter` from
`self.gaussianStd` via `utils.identity_map`, `utils.compute_normalized_gaussian`
and `ce.create_complex_fourier_filter`; those helper modules are not part of
src/, so the construction is modelled from the spec as an abstract total map
`mk : std -> filter` (the grid size is fixed per smoother instance).  The
convolution backends `ce.fourier_convolution` / `ce.inverse_fourier_convolution`
are likewise abstract total maps (the spec: `smooth = IT(T(v) * Filter)`,
`inverse_smooth = IT(T(v) / Filter)`, with numerical instability propagating
silently rather than raising).  The caching logic itself is fully in src/. -/

structure GaussianFourierSmoother (Phi : Type) : Type where
  gaussianStd : ℚ
  FFilter : Option Phi

/-- `GaussianFourierSmoother.__init__`: stores the configured std
(default 0.15) and sets `self.FFilter = None`. -/
def gf_init (Phi : Type) (std : ℚ) : GaussianFourierSmoother Phi :=
  { gaussianStd := std, FFilter := none }

/-- `GaussianFourierSmoother._create_filter`: builds the frequency filter from
the currently stored std and assigns it to `self.FFilter`. -/
def gf_create_filter {Phi : Type} (mk : ℚ → Phi) (s : GaussianFourierSmoother Phi) :
    GaussianFourierSmoother Phi :=
  { s with FFilter := some (mk s.gaussianStd) }

/-- `GaussianFourierSmoother.set_gaussian_std`: the source assigns
`self.gaussianStd = gstd` and nothing else — in particular `self.FFilter`
is left untouched. -/
def gf_set_gaussian_std {Phi : Type} (s : GaussianFourierSmoother Phi) (gstd : ℚ) :
    GaussianFourierSmoother Phi :=
  { s with gaussianStd := gstd }

/-- The `if self.FFilter is None: self._create_filter()` guard followed by the
read of `self.FFilter`, shared by `smooth_scalar_field` and
`inverse_smooth_scalar_field`: returns the (possibly updated) object state and
the filter that the subsequent convolution uses. -/
def gf_fetch_filter {Phi : Type} (mk : ℚ → Phi) (s : GaussianFourierSmoother Phi) :
    GaussianFourierSmoother Phi × Phi :=
  match s.FFilter with
  | none => (gf_create_filter mk s, mk s.gaussianStd)
  | some F => (s, F)

/-- `GaussianFourierSmoother.smooth_scalar_field`. -/
def gf_smooth_scalar_field {Phi V : Type} (mk : ℚ → Phi) (conv : V → Phi → V)
    (s : GaussianFourierSmoother Phi) (v : V) : GaussianFourierSmoother Phi × V :=
  let sF := gf_fetch_filter mk s
  (sF.1, conv v sF.2)

/-- `GaussianFourierSmoother.inverse_smooth_scalar_field`. -/
def gf_inverse_smooth_scalar_field {Phi V : Type} (mk : ℚ → Phi) (iconv : V → Phi → V)
    (s : GaussianFourierSmoother Phi) (v : V) : GaussianFourierSmoother Phi × V :=
  let sF := gf_fetch_filter mk s
  (sF.1, iconv v sF.2)

/-- C7: inverse smoothing fails with the UnsupportedOperation error on the
diffusion and spatial-Gaussian variants for every input field, while the
Fourier-Gaussian variant's `inverse_smooth` always returns a field — the
frequency-domain deconvolution of its input with the (lazily built) filter. -/
theorem inverse_smooth_raises_exactly_on_noninvertible
    (Phi V : Type) (mk : ℚ → Phi) (iconv : V → Phi → V) (std : ℚ) (F : Phi) (v : V) :
    diffusion_inverse_smooth_scalar_field v = Except.error PyErr.unsupportedOperation ∧
    gss_inverse_smooth_scalar_field v = Except.error PyErr.unsupportedOperation ∧
    gf_inverse_smooth_scalar_field mk iconv (gf_init Phi std) v =
      ({ gaussianStd := std, FFilter := some (mk std) }, iconv v (mk std)) ∧
    gf_inverse_smooth_scalar_field mk iconv { gaussianStd := std, FFilter := some F } v =
      ({ gaussianStd := std, FFilter := some F }, iconv v F) := by
  exact ⟨rfl, rfl, rfl, rfl⟩

/-! ### C4: filter caching versus `set_gaussian_std`

Instantiating the abstract filter constructor with the identity map makes the
cached filter record exactly the std it was built from, and a convolution that
returns the filter makes the std used by a smoothing call observable. -/

/-- C4 (code bug evidence): the filter is lazily built by the first smoothing
call and reused by later calls, but `set_gaussian_std` does NOT clear the
cached filter: after building the filter at std 0.15 and reconfiguring to
std 0.3, the cache still holds the filter built from 0.15 (it is not `none`),
and the next smoothing call keeps using the std-0.15 filter instead of
rebuilding from 0.3 as the claim requires. -/
theorem gf_set_std_keeps_stale_filter :
    (gf_smooth_scalar_field (fun g => g) (fun (_ : ℚ) F => F) (gf_init ℚ (3/20)) 0).1.FFilter =
      some (3/20) ∧
    (gf_smooth_scalar_field (fun g => g) (fun (_ : ℚ) F => F)
      (gf_smooth_scalar_field (fun g => g) (fun (_ : ℚ) F => F) (gf_init ℚ (3/20)) 0).1 0).2 =
      3/20 ∧
    (gf_set_gaussian_std
      (gf_smooth_scalar_field (fun g => g) (fun (_ : ℚ) F => F) (gf_init ℚ (3/20)) 0).1
      (3/10)).FFilter = some (3/20) ∧
    (gf_smooth_scalar_field (fun g => g) (fun (_ : ℚ) F => F)
      (gf_set_gaussian_std
        (gf_smooth_scalar_field (fun g => g) (fun (_ : ℚ) F => F) (gf_init ℚ (3/20)) 0).1
        (3/10)) 0).2 = 3/20 := by
  exact ⟨rfl, rfl, rfl, rfl⟩

/-! ### Runge-Kutta integrators (pyreg/rungekutta_integrators.py)

The elements of the composite state list are tensors, modelled as pointwise
rational arrays over an arbitrary index type `X`; tensor arithmetic
(`a + b`, `b * v`, `a / v` for scalar `v`) acts pointwise. -/

def tAdd {X : Type} (a b : X → ℚ) : X → ℚ := fun q => a q + b q

def tMulS {X : Type} (a : X → ℚ) (v : ℚ) : X → ℚ := fun q => a q * v

def tDivS {X : Type} (a : X → ℚ) (v : ℚ) : X → ℚ := fun q => a q / v

def tZero {X : Type} : X → ℚ := fun _ => 0

/-- `RKIntegrator.xpyts`: `[a+b*v for a,b in zip(x,y)]`. -/
def xpyts {X : Type} (x y : List (X → ℚ)) (v : ℚ) : List (X → ℚ) :=
  List.zipWith (fun a b => tAdd a (tMulS b v)) x y

/-- `RKIntegrator.xts`: `[a*v for a in x]`. -/
def xts {X : Type} (x : List (X → ℚ)) (v : ℚ) : List (X → ℚ) :=
  x.map (fun a => tMulS a v)

/-- `RKIntegrator.xpy`: `[a+b for a,b in zip(x,y)]`. -/
def xpy {X : Type} (x y : List (X → ℚ)) : List (X → ℚ) :=
  List.zipWith tAdd x y

/-- `RK4.solve_one_step`.  The final loop indexes `x[i]`, `k1[i]`, ..., `k4[i]`
for `i in range(len(x))`; `getD _ tZero` translates that indexing (Python would
raise IndexError if `f` shortened the list; under the length-preservation
hypothesis of the theorems below the default is never read). -/
def RK4_solve_one_step {X U P : Type} (f : ℚ → List (X → ℚ) → U → P → List (X → ℚ))
    (u : ℚ → P → U) (pars : P) (x : List (X → ℚ)) (t dt : ℚ) : List (X → ℚ) :=
  let k1 := xts (f t x (u t pars) pars) dt
  let k2 := xts (f (t + 0.5 * dt) (xpyts x k1 0.5) (u (t + 0.5 * dt) pars) pars) dt
  let k3 := xts (f (t + 0.5 * dt) (xpyts x k2 0.5) (u (t + 0.5 * dt) pars) pars) dt
  let k4 := xts (f (t + dt) (xpy x k3) (u (t + dt) pars) pars) dt
  (List.range x.length).map (fun i =>
    tAdd (tAdd (tAdd (tAdd (x.getD i tZero) (tDivS (k1.getD i tZero) 6))
      (tDivS (k2.getD i tZero) 3)) (tDivS (k3.getD i tZero) 3)) (tDivS (k4.getD i tZero) 6))

/-- `np.linspace(a, b, num)`: `num` evenly spaced points from `a` to `b`
inclusive, `a + i*(b-a)/(num-1)`. -/
def np_linspace (a b : ℚ) (num : ℕ) : List ℚ :=
  (List.range num).map (fun i : ℕ => a + (b - a) * (i : ℚ) / ((num : ℚ) - 1))

/-- `RKIntegrator.solve`'s step size: `timepoints = np.linspace(fromT, toT,
nrOfTimeSteps+1); dt = timepoints[1] - timepoints[0]` (index 1 exists for a
positive step count, which the theorems assume; `getD`'s default is then
never read). -/
def solve_dt (fromT toT : ℚ) (N : ℕ) : ℚ :=
  (np_linspace fromT toT (N + 1)).getD 1 0 - (np_linspace fromT toT (N + 1)).getD 0 0

/-- The `for i in range(0, nrOfTimeSteps)` loop of `RKIntegrator.solve`:
`x = solve_one_step(x, currentT, dt); currentT += dt`. -/
def RK_solve_loop {E : Type} (step : List E → ℚ → ℚ → List E) (dt : ℚ) :
    ℕ → List E → ℚ → List E
  | 0, x, _ => x
  | Nat.succ k, x, t => RK_solve_loop step dt k (step x t dt) (t + dt)

/-- `RKIntegrator.solve` on a state that already passed the `type(x)==list`
assertion (the assertion itself is modelled in `RK_solve_py` below). -/
def RK_solve {E : Type} (step : List E → ℚ → ℚ → List E) (N : ℕ) (x : List E)
    (fromT toT : ℚ) : List E :=
  RK_solve_loop step (solve_dt fromT toT N) N x fromT

/-- The RK4 update exactly as the claim states it (spec-side definition, to be
compared with the source embedding `RK4_solve_one_step`): `k1 = f(t,x)`,
`k2 = f(t+dt/2, x+dt/2*k1)`, `k3 = f(t+dt/2, x+dt/2*k2)`, `k4 = f(t+dt, x+dt*k3)`,
`x' = x + dt/6*(k1+2*k2+2*k3+k4)` elementwise over the state list, with `u`
evaluated at each stage time and `pars` shared. -/
def RK4_spec_step {X U P : Type} (f : ℚ → List (X → ℚ) → U → P → List (X → ℚ))
    (u : ℚ → P → U) (pars : P) (x : List (X → ℚ)) (t dt : ℚ) : List (X → ℚ) :=
  let K1 := f t x (u t pars) pars
  let K2 := f (t + dt / 2) (List.zipWith (fun a b => tAdd a (tMulS b (dt / 2))) x K1)
    (u (t + dt / 2) pars) pars
  let K3 := f (t + dt / 2) (List.zipWith (fun a b => tAdd a (tMulS b (dt / 2))) x K2)
    (u (t + dt / 2) pars) pars
  let K4 := f (t + dt) (List.zipWith (fun a b => tAdd a (tMulS b dt)) x K3)
    (u (t + dt) pars) pars
  (List.range x.length).map (fun i =>
    tAdd (x.getD i tZero)
      (tMulS (tAdd (tAdd (tAdd (K1.getD i tZero) (tMulS (K2.getD i tZero) 2))
        (tMulS (K3.getD i tZero) 2)) (K4.getD i tZero)) (dt / 6)))

lemma zipWith_fun_congr {α β γ : Type} {f g : α → β → γ} (h : ∀ a b, f a b = g a b)
    (l1 : List α) (l2 : List β) : List.zipWith f l1 l2 = List.zipWith g l1 l2 := by
  have hfg : f = g := funext fun a => funext fun b => h a b
  rw [hfg]

lemma stage_half {X : Type} (x L : List (X → ℚ)) (dt : ℚ) :
    xpyts x (xts L dt) 0.5 = List.zipWith (fun a b => tAdd a (tMulS b (dt / 2))) x L := by
  unfold xpyts xts
  rw [List.zipWith_map_right]
  exact zipWith_fun_congr (fun a b => by funext q; simp [tAdd, tMulS]; ring) x L

lemma stage_full {X : Type} (x L : List (X → ℚ)) (dt : ℚ) :
    xpy x (xts L dt) = List.zipWith (fun a b => tAdd a (tMulS b dt)) x L := by
  unfold xpy xts
  exact List.zipWith_map_right ..

lemma getD_xts {X : Type} (L : List (X → ℚ)) (dt : ℚ) (i : ℕ) (h : i < L.length) :
    (xts L dt).getD i tZero = tMulS (L.getD i tZero) dt := by
  unfold xts
  rw [List.getD_eq_getElem _ _ (by simpa using h), List.getElem_map,
    List.getD_eq_getElem _ _ h]

lemma RK_solve_loop_eq {E : Type} (step : List E → ℚ → ℚ → List E) (dt : ℚ) (k : ℕ)
    (x : List E) (t : ℚ) :
    RK_solve_loop step dt k x t =
      (List.range k).foldl (fun s (i : ℕ) => step s (t + (i : ℚ) * dt) dt) x := by
  induction k generalizing x t with
  | zero => rfl
  | succ k ih =>
      show RK_solve_loop step dt k (step x t dt) (t + dt) = _
      rw [ih, List.range_succ_eq_map, List.foldl_cons, List.foldl_map]
      congr 1
      · funext s i
        congr 1
        push_cast
        ring
      · congr 1
        push_cast
        ring

lemma solve_dt_eq (a b : ℚ) (N : ℕ) (hN : 0 < N) : solve_dt a b N = (b - a) / N := by
  unfold solve_dt np_linspace
  have h1 : 1 < (List.map (fun i : ℕ => a + (b - a) * (i : ℚ) / (((N + 1 : ℕ) : ℚ) - 1))
      (List.range (N + 1))).length := by
    simp only [List.length_map, List.length_range]
    omega
  have h0 : 0 < (List.map (fun i : ℕ => a + (b - a) * (i : ℚ) / (((N + 1 : ℕ) : ℚ) - 1))
      (List.range (N + 1))).length := by
    simp only [List.length_map, List.length_range]
    omega
  rw [List.getD_eq_getElem _ _ h1, List.getD_eq_getElem _ _ h0, List.getElem_map,
    List.getElem_map, List.getElem_range, List.getElem_range]
  have hNQ : ((N : ℚ)) ≠ 0 := Nat.cast_ne_zero.mpr (by omega)
  push_cast
  field_simp
  ring

/-- C1: for every composite state list, `solve` partitions `[fromT, toT]` into
`N` equal steps of `dt = (toT-fromT)/N` (via `np.linspace`) and threads the
state through `N` applications of `solve_one_step` at times `fromT + i*dt`;
and (given that the right-hand side `f` preserves the arity of the state list)
the RK4 step equals, elementwise over the state list,
`x + dt/6*(k1+2*k2+2*k3+k4)` with the four classical stages, each stage
receiving `u` at its stage time and the shared `pars`. -/
theorem rk4_solve_partitions_and_stages
    (X U P : Type) (f : ℚ → List (X → ℚ) → U → P → List (X → ℚ))
    (u : ℚ → P → U) (pars : P) (N : ℕ) (x : List (X → ℚ)) (fromT toT t dt : ℚ)
    (hN : 0 < N) (hf : ∀ (s : ℚ) (y : List (X → ℚ)) (w : U) (q : P),
      (f s y w q).length = y.length) :
    solve_dt fromT toT N = (toT - fromT) / N ∧
    RK_solve (RK4_solve_one_step f u pars) N x fromT toT =
      (List.range N).foldl
        (fun s (i : ℕ) => RK4_solve_one_step f u pars s
          (fromT + (i : ℚ) * ((toT - fromT) / N)) ((toT - fromT) / N)) x ∧
    RK4_solve_one_step f u pars x t dt = RK4_spec_step f u pars x t dt := by
  refine ⟨solve_dt_eq fromT toT N hN, ?_, ?_⟩
  · unfold RK_solve
    rw [solve_dt_eq fromT toT N hN, RK_solve_loop_eq]
  · have ht2 : t + 0.5 * dt = t + dt / 2 := by ring
    unfold RK4_solve_one_step RK4_spec_step
    dsimp only
    rw [ht2, stage_half, stage_half, stage_full]
    set F1 := f t x (u t pars) pars with hF1
    set F2 := f (t + dt / 2) (List.zipWith (fun a b => tAdd a (tMulS b (dt / 2))) x F1)
      (u (t + dt / 2) pars) pars with hF2
    set F3 := f (t + dt / 2) (List.zipWith (fun a b => tAdd a (tMulS b (dt / 2))) x F2)
      (u (t + dt / 2) pars) pars with hF3
    set F4 := f (t + dt) (List.zipWith (fun a b => tAdd a (tMulS b dt)) x F3)
      (u (t + dt) pars) pars with hF4
    have lF1 : F1.length = x.length := by rw [hF1, hf]
    have lF2 : F2.length = x.length := by
      rw [hF2, hf, List.length_zipWith, lF1, min_self]
    have lF3 : F3.length = x.length := by
      rw [hF3, hf, List.length_zipWith, lF2, min_self]
    have lF4 : F4.length = x.length := by
      rw [hF4, hf, List.length_zipWith, lF3, min_self]
    refine List.map_congr_left fun i hi => ?_
    rw [List.mem_range] at hi
    rw [getD_xts F1 dt i (by rw [lF1]; exact hi), getD_xts F2 dt i (by rw [lF2]; exact hi),
      getD_xts F3 dt i (by rw [lF3]; exact hi), getD_xts F4 dt i (by rw [lF4]; exact hi)]
    funext q
    simp only [tAdd, tMulS, tDivS]
    ring

/-- Witness for `rk4_solve_partitions_and_stages` with the identity right-hand
side on a singleton state list, two time steps on `[0, 1]`. -/
theorem rk4_solve_partitions_and_stages_witness :
    solve_dt 0 1 2 = (1 - 0) / 2 ∧
    RK_solve (RK4_solve_one_step (fun _ (y : List (Unit → ℚ)) (_ : Unit) (_ : Unit) => y)
        (fun _ _ => ()) ()) 2 [fun _ => 1] 0 1 =
      (List.range 2).foldl
        (fun s (i : ℕ) => RK4_solve_one_step
          (fun _ (y : List (Unit → ℚ)) (_ : Unit) (_ : Unit) => y) (fun _ _ => ()) () s
          ((0 : ℚ) + (i : ℚ) * ((1 - 0) / 2)) ((1 - 0) / 2)) [fun _ => 1] ∧
    RK4_solve_one_step (fun _ (y : List (Unit → ℚ)) (_ : Unit) (_ : Unit) => y)
        (fun _ _ => ()) () [fun _ => 1] 0 (1 / 2) =
      RK4_spec_step (fun _ (y : List (Unit → ℚ)) (_ : Unit) (_ : Unit) => y)
        (fun _ _ => ()) () [fun _ => 1] 0 (1 / 2) :=
  rk4_solve_partitions_and_stages Unit Unit Unit
    (fun _ y _ _ => y) (fun _ _ => ()) () 2 [fun _ => 1] 0 1 0 (1 / 2)
    (by norm_num) (fun _ _ _ _ => rfl)

/-! ### Integrator input validation (C8) -/

/-- A Python object passed as the integrator state `x`: the expected list, a
non-list iterable such as a tuple, or a non-iterable object. -/
inductive PyObj (E : Type) : Type
  | list (xs : List E)
  | tuple (xs : List E)
  | other (a : E)
  deriving DecidableEq

/-- `[g(a, b) for a, b in zip(x, y)]` for an arbitrary Python object `x`:
`zip` iterates lists and tuples alike (truncating to the shorter argument)
and raises TypeError on a non-iterable first argument. -/
def pyZipWithList {E R : Type} (g : E → E → R) : PyObj E → List E → Except PyErr (List R)
  | PyObj.list xs, ys => Except.ok (List.zipWith g xs ys)
  | PyObj.tuple xs, ys => Except.ok (List.zipWith g xs ys)
  | PyObj.other _, _ => Except.error PyErr.typeError

/-- `EulerForward.solve_one_step`:
`xpyts(x, f(t, x, u(t, pars), pars), dt)` — no validation of `x` of its own. -/
def EulerForward_solve_one_step_py {X U P : Type}
    (f : ℚ → PyObj (X → ℚ) → U → P → List (X → ℚ)) (u : ℚ → P → U) (pars : P)
    (x : PyObj (X → ℚ)) (t dt : ℚ) : Except PyErr (List (X → ℚ)) :=
  pyZipWithList (fun a b => tAdd a (tMulS b dt)) x (f t x (u t pars) pars)

/-- `RKIntegrator.solve` including its `assert type(x)==list` guard (a failed
Python assert raises AssertionError — the error the spec calls InvalidState). -/
def RK_solve_py {E : Type} (step : List E → ℚ → ℚ → List E) (N : ℕ)
    (x : PyObj E) (fromT toT : ℚ) : Except PyErr (List E) :=
  match x with
  | PyObj.list xs => Except.ok (RK_solve step N xs fromT toT)
  | _ => Except.error PyErr.assertionError

/-- C8 counterexample: `solve_one_step` called with a non-list state (a tuple)
does NOT fail with an InvalidState error — it computes and returns a result. -/
theorem euler_step_accepts_tuple_counterexample :
    EulerForward_solve_one_step_py
      (fun _ _ (_ : Unit) (_ : Unit) => [fun _ : Unit => (1 : ℚ)]) (fun _ _ => ()) ()
      (PyObj.tuple [fun _ : Unit => (2 : ℚ)]) 0 1 =
      Except.ok [fun _ : Unit => (3 : ℚ)] := by
  refine congrArg Except.ok (congrArg (fun z => [z]) ?_)
  funext q
  show (2 : ℚ) + 1 * 1 = 3
  norm_num

/-- C8 amended: `solve` fails with the InvalidState (assertion) error for every
`x` that is not a list, but `solve_one_step` performs no structural validation:
on a tuple it computes and returns the Euler update (zip silently accepts any
iterable), and only a non-iterable `x` makes it fail — with a TypeError from
`zip`, not an InvalidState error. -/
theorem solve_validates_but_solve_one_step_does_not
    (X U P : Type) (step : List (X → ℚ) → ℚ → ℚ → List (X → ℚ)) (N : ℕ)
    (fromT toT t dt : ℚ) (x : PyObj (X → ℚ))
    (hx : ∀ ys : List (X → ℚ), x ≠ PyObj.list ys)
    (f : ℚ → PyObj (X → ℚ) → U → P → List (X → ℚ)) (u : ℚ → P → U) (pars : P)
    (xs : List (X → ℚ)) (e : X → ℚ) :
    RK_solve_py step N x fromT toT = Except.error PyErr.assertionError ∧
    EulerForward_solve_one_step_py f u pars (PyObj.tuple xs) t dt =
      Except.ok (List.zipWith (fun a b => tAdd a (tMulS b dt)) xs
        (f t (PyObj.tuple xs) (u t pars) pars)) ∧
    EulerForward_solve_one_step_py f u pars (PyObj.other e) t dt =
      Except.error PyErr.typeError := by
  refine ⟨?_, rfl, rfl⟩
  cases x with
  | list xs => exact absurd rfl (hx xs)
  | tuple xs => rfl
  | other a => rfl

/-- Witness for `solve_validates_but_solve_one_step_does_not` on concrete
empty-tuple and non-iterable states. -/
theorem solve_validates_witness :
    RK_solve_py (fun s _ _ => s) 1 (PyObj.tuple ([] : List (Unit → ℚ))) 0 1 =
      Except.error PyErr.assertionError ∧
    EulerForward_solve_one_step_py
      (fun _ _ (_ : Unit) (_ : Unit) => ([] : List (Unit → ℚ))) (fun _ _ => ()) ()
      (PyObj.tuple []) 0 1 = Except.ok ([] : List (Unit → ℚ)) ∧
    EulerForward_solve_one_step_py
      (fun _ _ (_ : Unit) (_ : Unit) => ([] : List (Unit → ℚ))) (fun _ _ => ()) ()
      (PyObj.other (fun _ => 0)) 0 1 = Except.error PyErr.typeError :=
  solve_validates_but_solve_one_step_does_not Unit Unit Unit (fun s _ _ => s) 1 0 1 0 1
    (PyObj.tuple []) (fun ys h => PyObj.noConfusion h)
    (fun _ _ _ _ => []) (fun _ _ => ()) () [] (fun _ => 0)
